import Mathlib

/-!
Shallow embedding of the SLICC type-system / code-emission engine
(`src/mem/slicc/symbols/Type.py`): the `Type` symbol with its attribute
pairs, data members, methods and enumeration entries, the mutators
`addDataMember` / `addFunc` / `addEnum` / `checkEnum`, and the parts of the
header/implementation emission (`printTypeHH` / `printTypeCC` /
`printEnumCC`) that the verified properties are about.  Python's ordered
dictionaries are embedded as lists (insertion order kept explicitly);
mutation is explicit state passing; code emission is modelled as lists of
emitted statements/lines; a Python `panic`/`assert` failure is `none`.
-/

namespace Slicc

/-- Containment of `xs` as a contiguous sublist of `ys`. -/
def listInfixOf [BEq α] : List α → List α → Bool
  | xs, [] => xs.isEmpty
  | xs, y :: ys => xs.isPrefixOf (y :: ys) || listInfixOf xs ys

/-- Python's `x in s` on strings is containment of `x` as a contiguous
substring of `s` (the empty string is a substring of every string).  This is
the semantics of the buggy-looking `self.ident in ("CacheMemory")` checks in
`Type.__init__` (Type.py lines 92-114), where `("CacheMemory")` is a plain
string, not a tuple. -/
def substrOf (x s : String) : Bool :=
  listInfixOf x.data s.data

/-- Attribute bag of a `Symbol` (`self.pairs`): a Python `dict` from string
keys to string values, insertion-ordered.  Embedded as an association list
whose keys are kept unique by the operations below (overwrite in place,
append fresh keys at the end), exactly the `dict` behaviour. -/
abbrev Pairs := List (String × String)

/-- Dictionary lookup `p[k]` (first matching key; keys are unique). -/
def pairsGet : Pairs → String → Option String
  | [], _ => none
  | kv :: rest, k => if kv.1 == k then some kv.2 else pairsGet rest k

/-- Python `k in p` membership test on the attribute bag. -/
def pairsMem (p : Pairs) (k : String) : Bool :=
  (pairsGet p k).isSome

/-- Dictionary assignment `p[k] = v`: overwrite the value in place if the
key exists, else append the new pair at the end. -/
def pairsSet : Pairs → String → String → Pairs
  | [], k, v => [(k, v)]
  | kv :: rest, k, v =>
    if kv.1 == k then (k, v) :: rest else kv :: pairsSet rest k v

/-- Python `dict.setdefault(k, v)`: insert `(k, v)` only when `k` absent. -/
def pairsSetDefault (p : Pairs) (k v : String) : Pairs :=
  if pairsMem p k then p else p ++ [(k, v)]

/-- The fields of a referenced `Type` that this component reads from the
types of data members and method parameters: its generated identifier
`c_ident`, `abstract_ident`, attribute pairs, and generated file name. -/
structure TypeRef where
  c_ident : String
  abstract_ident : String
  pairs : Pairs
  gen_filename : String
  deriving DecidableEq

/-- `"primitive" in type` for a referenced type. -/
def TypeRef.isPrimitive (t : TypeRef) : Bool :=
  pairsMem t.pairs "primitive"

/-- `DataMember` (Type.py lines 47-55): a typed field of a record type.
`code` is the generated field name, `real_c_type` the resolved storage type
text (the declared type's `c_ident`, extended by the `template` pair when
present). `init_code` is the optional initializer expression; the empty
string is Python-falsy, i.e. "no initializer". -/
structure DataMember where
  ident : String
  type : TypeRef
  code : String
  pairs : Pairs
  init_code : String
  real_c_type : String
  deriving DecidableEq

/-- `DataMember.__init__`: store the field, generate `real_c_type` from the
declared type's `c_ident` plus the `template` pair suffix when present.
The generated field name `code` is supplied by the caller (`addDataMember`
passes `m_<ident>`). -/
def mkDataMember (ident : String) (type : TypeRef) (code : String)
    (pairs : Pairs) (init_code : String) : DataMember :=
  { ident := ident
    type := type
    code := code
    pairs := pairs
    init_code := init_code
    real_c_type :=
      match pairsGet pairs "template" with
      | some tmpl => type.c_ident ++ tmpl
      | none => type.c_ident }

/-- `Enumeration` (Type.py lines 58-62): a named enum case with annotation
pairs; `primary` latches to true the first time `checkEnum` claims it. -/
structure Enumeration where
  ident : String
  pairs : Pairs
  primary : Bool
  deriving DecidableEq

/-- The part of a `Func` symbol that `Type` reads: its identifier and the
ordered parameter-type list (used by `methodId` mangling in `addFunc`). -/
structure Func where
  ident : String
  param_types : List TypeRef
  deriving DecidableEq

/-- The `Type` symbol (Type.py lines 65-123).  `pairs` is the inherited
attribute bag; `data_members` and `enums` are the insertion-ordered
dictionaries (keys are the `ident` fields, unique by construction);
`methods` is keyed by the mangled signature; `symtabLog` records, in order,
the `self.symtab.registerSym(ident, member)` calls issued by
`addDataMember` (the owning symbol table itself is an external
collaborator). -/
structure SType where
  ident : String
  c_ident : String
  abstract_ident : String
  shared : Bool
  protocol_specific : String
  gen_filename : String
  header_string : String
  pairs : Pairs
  isMachineType : Bool
  isStateDecl : Bool
  statePermPairs : List (String × String)
  data_members : List DataMember
  methods : List (String × Func)
  enums : List Enumeration
  symtabLog : List (String × DataMember)
  deriving DecidableEq

/-- The pair-mutation part of `Type.__init__` (Type.py lines 89-114): the
`desc` default, then the interface-implementation hook (`message` set when
the `interface` pair's value is a Python-substring of `"Message"`), then
the six fixed-name collaborator hooks.  `cache` and `tbe` use Python `in`
against the plain strings `"CacheMemory"` and `"TBETable"` (substring
containment); `timer`, `dir`, `persistent`, `prefetcher` use `==`. -/
def hookPairs (ident : String) (p0 : Pairs) : Pairs :=
  let p1 := pairsSetDefault p0 "desc" "No description avaliable"
  let p2 :=
    match pairsGet p1 "interface" with
    | some iface => if substrOf iface "Message" then pairsSet p1 "message" "yes" else p1
    | none => p1
  let p3 := if substrOf ident "CacheMemory" then pairsSet p2 "cache" "yes" else p2
  let p4 := if substrOf ident "TBETable" then pairsSet p3 "tbe" "yes" else p3
  let p5 := if ident == "TimerTable" then pairsSet p4 "timer" "yes" else p4
  let p6 := if ident == "DirectoryMemory" then pairsSet p5 "dir" "yes" else p5
  let p7 := if ident == "PersistentTable" then pairsSet p6 "persistent" "yes" else p6
  let p8 := if ident == "Prefetcher" then pairsSet p7 "prefetcher" "yes" else p7
  p8

/-- `Type.__init__` (Type.py lines 66-123).  `protocol` is
`table.slicc.protocol`, with the empty string standing for Python-falsy
(no active protocol context); `machine` is the optional owning machine
name.  Computes `c_ident`, the derived naming, the mutated pair bag via
`hookPairs`, the `MachineType` / `state_decl` flags, and the empty
containers. -/
def mkType (protocol : String) (ident : String) (pairs : Pairs)
    (shared : Bool) (machine : Option String) : SType :=
  let isExternal := pairsMem pairs "external"
  let isPrimitive := pairsMem pairs "primitive"
  let c_ident :=
    match machine with
    | some m =>
      if isExternal || isPrimitive then
        match pairsGet pairs "external_name" with
        | some ext => ext
        | none => ident
      else m ++ "_" ++ ident
    | none => ident
  let outside := shared || protocol == "" || isExternal
  let protocol_specific := if outside then "" else protocol
  let finalPairs := hookPairs ident pairs
  { ident := ident
    c_ident := c_ident
    abstract_ident := ""
    shared := shared
    protocol_specific := protocol_specific
    gen_filename := if outside then c_ident else protocol_specific ++ "/" ++ c_ident
    header_string := if outside then c_ident else protocol_specific ++ "_" ++ c_ident
    pairs := finalPairs
    isMachineType := ident == "MachineType"
    isStateDecl := pairsMem finalPairs "state_decl"
    statePermPairs := []
    data_members := []
    methods := []
    enums := []
    symtabLog := [] }

/-- `"message" in self` capability query. -/
def SType.isMessage (t : SType) : Bool := pairsMem t.pairs "message"

/-- `"tbe" in self` capability query. -/
def SType.isTBE (t : SType) : Bool := pairsMem t.pairs "tbe"

/-- `"global" in self` capability query. -/
def SType.isGlobal (t : SType) : Bool := pairsMem t.pairs "global"

/-- `"external" in self` capability query. -/
def SType.isExternal (t : SType) : Bool := pairsMem t.pairs "external"

/-- `"enumeration" in self` capability query. -/
def SType.isEnumerationType (t : SType) : Bool := pairsMem t.pairs "enumeration"

/-- `"interface" in self` capability query. -/
def SType.isInterfaceType (t : SType) : Bool := pairsMem t.pairs "interface"

/-- `Type.addDataMember` (Type.py lines 166-183): reject when the field
identifier is already a key of `data_members`; otherwise build the
`DataMember` with generated field name `m_<ident>`, append it to the
ordered member dictionary, register it in the owning symbol table, and
report success. -/
def addDataMemberB (t : SType) (ident : String) (type : TypeRef)
    (pairs : Pairs) (init_code : String) : Bool × SType :=
  if (t.data_members.find? (fun dm => dm.ident == ident)).isSome then
    (false, t)
  else
    let member := mkDataMember ident type ("m_" ++ ident) pairs init_code
    (true,
      { t with
        data_members := t.data_members ++ [member]
        symtabLog := t.symtabLog ++ [(ident, member)] })

/-- State component of `addDataMember` (for folding declaration lists). -/
def addDataMemberS (t : SType) (ident : String) (type : TypeRef)
    (pairs : Pairs) (init_code : String) : SType :=
  (addDataMemberB t ident type pairs init_code).2

/-- `Type.dataMemberType` (Type.py lines 185-186); a missing key raises in
Python, embedded as `none`. -/
def dataMemberType (t : SType) (ident : String) : Option TypeRef :=
  (t.data_members.find? (fun dm => dm.ident == ident)).map (fun dm => dm.type)

/-- `Type.methodId` (Type.py lines 188-189): join the method name and the
parameter types' generated identifiers with `_`. -/
def methodId (name : String) (param_type_vec : List TypeRef) : String :=
  String.intercalate "_" (name :: param_type_vec.map (fun pt => pt.c_ident))

/-- `Type.methodIdAbstract` (Type.py lines 191-192). -/
def methodIdAbstract (name : String) (param_type_vec : List TypeRef) : String :=
  String.intercalate "_" (name :: param_type_vec.map (fun pt => pt.abstract_ident))

/-- `Type.statePermPairAdd` (Type.py lines 194-195). -/
def statePermPairAdd (t : SType) (state_name perm_name : String) : SType :=
  { t with statePermPairs := t.statePermPairs ++ [(state_name, perm_name)] }

/-- `Type.addFunc` (Type.py lines 197-203): mangle the signature with
`methodId`; reject when that key is already present, else store the method
under it. -/
def addFuncB (t : SType) (func : Func) : Bool × SType :=
  let key := methodId func.ident func.param_types
  if (t.methods.find? (fun kv => kv.1 == key)).isSome then
    (false, t)
  else
    (true, { t with methods := t.methods ++ [(key, func)] })

/-- `Type.addEnum` (Type.py lines 205-215): reject when the identifier is
already a key of `enums`; otherwise append a fresh (non-primary)
`Enumeration` entry and, when the type has no `default` pair yet, set it to
`<c_ident>_NUM`. -/
def addEnumB (t : SType) (ident : String) (pairs : Pairs) : Bool × SType :=
  if (t.enums.find? (fun e => e.ident == ident)).isSome then
    (false, t)
  else
    let t1 := { t with enums := t.enums ++ [⟨ident, pairs, false⟩] }
    let t2 :=
      if pairsMem t1.pairs "default" then t1
      else { t1 with pairs := pairsSet t1.pairs "default" (t1.c_ident ++ "_NUM") }
    (true, t2)

/-- `Type.checkEnum` (Type.py lines 219-223): when the identifier is a
registered, not-yet-primary entry, mark that entry primary (keyed update of
the `enums` dictionary) and return true; in every other case (unknown
identifier, or entry already primary) return false with no mutation. -/
def checkEnumB (t : SType) (ident : String) : Bool × SType :=
  if (t.enums.find? (fun e => e.ident == ident && !e.primary)).isSome then
    (true,
      { t with
        enums := t.enums.map (fun e =>
          if e.ident == ident then { e with primary := true } else e) })
  else
    (false, t)

/-- State component of `checkEnum`. -/
def checkEnumS (t : SType) (ident : String) : SType :=
  (checkEnumB t ident).2

/-- Fold of `checkEnum` calls over a list of identifiers (an arbitrary
later segment of the Type's lifetime). -/
def checkEnumMany (t : SType) (l : List String) : SType :=
  l.foldl checkEnumS t

/-- Whether the entry for `ident` has already been claimed primary. -/
def enumClaimed (t : SType) (ident : String) : Bool :=
  t.enums.any (fun e => e.ident == ident && e.primary)

/-! ### Emission layer: `printTypeHH` / `printTypeCC` (record and message types)

Emitted code is modelled structurally: each generation loop of the source
becomes a function from the `SType` to the list of statements/lines it
emits, in emission order. -/

/-- The fixed tuple `needs_block_size` of block-size-dependent storage
kinds (Type.py lines 453-459). -/
def needs_block_size : List String :=
  ["DataBlock", "WriteMask", "PersistentTable", "TimerTable", "PerfectCacheMemory"]

/-- The members selected by the constructor-initializer-list loops: every
such loop in `printTypeHH` guards on
`dm.real_c_type in ("DataBlock", "WriteMask")` (a genuine tuple, so exact
equality with either name; Type.py lines 300, 311, 325, 394, 400, 405). -/
def blockInitMembers (t : SType) : List DataMember :=
  t.data_members.filter (fun dm =>
    dm.real_c_type == "DataBlock" || dm.real_c_type == "WriteMask")

/-- The constructor-initializer-list entries of the default (zero-argument
or message/TBE) constructor (Type.py lines 293-334): only `DataBlock` and
`WriteMask` members are initialized there — with `blockSize` for message
types, `block_size` for TBE types, and the literal `0` otherwise.
Punctuation (`:` / `,`) of the emitted list is elided. -/
def defaultCtorInitList (t : SType) : List String :=
  if t.isMessage then
    (blockInitMembers t).map (fun dm => "m_" ++ dm.ident ++ "(blockSize)")
  else if t.isTBE then
    (blockInitMembers t).map (fun dm => "m_" ++ dm.ident ++ "(block_size)")
  else
    (blockInitMembers t).map (fun dm => "m_" ++ dm.ident ++ "(0)")

/-- The full-value constructor's per-field parameter list (Type.py lines
372-376): one `const <real_c_type>& local_<ident>` per data member, in
declaration order. -/
def fullCtorParams (t : SType) : List String :=
  t.data_members.map (fun dm => "const " ++ dm.real_c_type ++ "& local_" ++ dm.ident)

/-- The complete parameter list of the full-value constructor: message
types prepend the timestamp / block size / system pointer parameters
(Type.py lines 378-382). -/
def fullCtorParamsAll (t : SType) : List String :=
  if t.isMessage then
    "const Tick curTime" :: "const int blockSize" :: "const RubySystem *rs" :: fullCtorParams t
  else
    fullCtorParams t

/-- The full-value constructor's initializer list (Type.py lines 386-411):
the superclass constructor call when an `interface` pair exists, then the
`DataBlock`/`WriteMask` members (initialized from `blockSize` for messages,
else from their `local_` parameter). -/
def fullCtorInitList (t : SType) : List String :=
  match pairsGet t.pairs "interface" with
  | some iface =>
    if t.isMessage then
      (": " ++ iface ++ "(curTime, blockSize, rs)") ::
        (blockInitMembers t).map (fun dm => "m_" ++ dm.ident ++ "(blockSize)")
    else
      (": " ++ iface ++ "()") ::
        (blockInitMembers t).map (fun dm => "m_" ++ dm.ident ++ "(local_" ++ dm.ident ++ ")")
  | none =>
    (blockInitMembers t).map (fun dm => "m_" ++ dm.ident ++ "(local_" ++ dm.ident ++ ")")

/-- The full-value constructor's body (Type.py lines 415-417): every member
that is not `DataBlock`/`WriteMask` is assigned from its parameter. -/
def fullCtorBody (t : SType) : List String :=
  (t.data_members.filter (fun dm =>
      !(dm.real_c_type == "DataBlock" || dm.real_c_type == "WriteMask"))).map
    (fun dm => "m_" ++ dm.ident ++ " = local_" ++ dm.ident ++ ";")

/-- The emitted full-value constructor (Type.py lines 370-420): guarded by
`if not self.isGlobal` — global types never get it; otherwise the
signature line, the initializer list and the assignment body. -/
def fullCtorLines (t : SType) : List String :=
  if t.isGlobal then []
  else
    (t.c_ident ++ "(" ++ String.intercalate ", " (fullCtorParamsAll t) ++ ")") ::
      (fullCtorInitList t ++ fullCtorBody t)

/-- The body of the emitted `initBlockSize` block-size setter (Type.py
lines 449-464, emitted only for non-global types): after the
`block_size_bits` update, one `setBlockSize` forwarding statement per
member whose `real_c_type` is in `needs_block_size`, in declaration
order. -/
def initBlockSizeStmts (t : SType) : List String :=
  (t.data_members.filter (fun dm => needs_block_size.contains dm.real_c_type)).map
    (fun dm => "m_" ++ dm.ident ++ ".setBlockSize(block_size);")

/-- The body of the emitted `setRubySystem` method (Type.py lines 466-472):
one forwarding statement per `NetDest` member. -/
def setRubySystemStmts (t : SType) : List String :=
  (t.data_members.filter (fun dm => substrOf dm.real_c_type "NetDest")).map
    (fun dm => "m_" ++ dm.ident ++ ".setRubySystem(ruby_system);")

/-- Signature lines of the emitted const accessors (Type.py lines 475-488),
in emission order. -/
def constAccessorLines (t : SType) : List String :=
  t.data_members.map (fun dm =>
    "const " ++ dm.real_c_type ++ "& get" ++ dm.ident ++ "() const")

/-- Signature lines of the emitted non-const accessors (Type.py lines
490-504), in emission order. -/
def accessorLines (t : SType) : List String :=
  t.data_members.map (fun dm => dm.real_c_type ++ "& get" ++ dm.ident ++ "()")

/-- Signature lines of the emitted mutators (Type.py lines 506-518), in
emission order. -/
def mutatorLines (t : SType) : List String :=
  t.data_members.map (fun dm =>
    "void set" ++ dm.ident ++ "(const " ++ dm.real_c_type ++ "& local_" ++ dm.ident ++ ")")

/-- Lines emitted for one data member's storage declaration (Type.py lines
529-547): the optional `desc` documentation line, then
`[static const ]<real_c_type> m_<ident>[ = <init>];`.  `static const`
appears exactly for global types; the initializer appears exactly when
`init_code` is nonempty, and the source `assert self.isGlobal` on that path
is modelled as `none` (emission aborts) for non-global types. -/
def fieldDeclLine (isGlob : Bool) (dm : DataMember) : Option (List String) :=
  if dm.init_code != "" && !isGlob then none
  else
    some
      ((match pairsGet dm.pairs "desc" with
        | some d => ["/** " ++ d ++ " */"]
        | none => []) ++
       [(if isGlob then "static const " else "") ++ dm.real_c_type ++ " m_" ++ dm.ident ++
        (if dm.init_code != "" then " = " ++ dm.init_code else "") ++ ";"])

/-- The storage-declaration loop (Type.py lines 528-547): members carrying
an `abstract` pair are skipped entirely; the rest emit their declaration
lines in declaration order. -/
def fieldDeclsOf : Bool → List DataMember → Option (List String)
  | _, [] => some []
  | g, dm :: rest =>
    if pairsMem dm.pairs "abstract" then fieldDeclsOf g rest
    else
      match fieldDeclLine g dm, fieldDeclsOf g rest with
      | some ls, some rs => some (ls ++ rs)
      | _, _ => none

/-- The emitted field storage declarations of a type. -/
def fieldDeclLines (t : SType) : Option (List String) :=
  fieldDeclsOf t.isGlobal t.data_members

/-- The body of the emitted `print` method (`printTypeCC`, Type.py lines
629-637): one output statement per data member in declaration order;
`Addr`-typed members are rendered through `printAddress`. -/
def printBodyLines (t : SType) : List String :=
  t.data_members.map (fun dm =>
    if dm.type.c_ident == "Addr" then
      "out << \"" ++ dm.ident ++ " = \" << printAddress(m_" ++ dm.ident ++
        ", block_size_bits) << \" \";"
    else
      "out << \"" ++ dm.ident ++ " = \" << m_" ++ dm.ident ++ " << \" \";")

/-! ### Emission layer: `printEnumCC` (enumeration types)

In the emitted `enum` declaration (`printEnumHH`, Type.py lines 721-739)
the first declared entry is aliased to `<c_ident>_FIRST` (value 0), each
later entry follows in declaration order, and the `NUM` sentinel comes
last, so the entry declared at position `i` has integer value `i` and the
sentinel has value `enums.length`.  Enumeration values are therefore
embedded as the `Nat` positions, and the emitted `switch`/`if` chains as
recursive scans over the declared entries, carrying the running value. -/

/-- Scan of the per-entry `case` arms of the emitted `<X>_to_string`
`switch` (Type.py lines 955-958): the arm generated for the entry at value
`i` returns that entry's identifier text. -/
def enum_to_string_go (i : Nat) (es : List Enumeration) (v : Nat) : Option String :=
  match es with
  | [] => none
  | e :: rest => if v == i then some e.ident else enum_to_string_go (i + 1) rest v

/-- The emitted `<X>_to_string` function (Type.py lines 946-971): per-entry
arms, then the `NUM` arm returning the text `NUM (invalid)`, then the
`default: panic` arm (`none`). -/
def enum_to_string (t : SType) (v : Nat) : Option String :=
  match enum_to_string_go 0 t.enums v with
  | some s => some s
  | none => if v == t.enums.length then some "NUM (invalid)" else none

/-- Scan of the emitted `string_to_<X>` `if`/`else if` chain (Type.py lines
981-987): the arm generated for the entry at value `i` fires when the input
equals that entry's identifier text and returns the entry. -/
def string_to_enum_go (i : Nat) (es : List Enumeration) (s : String) : Option Nat :=
  match es with
  | [] => none
  | e :: rest => if s == e.ident then some i else string_to_enum_go (i + 1) rest s

/-- The emitted `string_to_<X>` function (Type.py lines 973-994): the
`if` chain over the declared entries, closed by a `panic` arm (`none`). -/
def string_to_enum (t : SType) (s : String) : Option Nat :=
  string_to_enum_go 0 t.enums s

/-- Scan of the per-entry `case` arms of the emitted
`MachineType_base_level` `switch` (Type.py lines 1024-1029): the arm
generated for the entry at position `i` (enum value `i`) returns the
integer `i`. -/
def base_level_go (i : Nat) (es : List Enumeration) (v : Nat) : Option Nat :=
  match es with
  | [] => none
  | _ :: rest => if v == i then some i else base_level_go (i + 1) rest v

/-- The emitted `MachineType_base_level` function (Type.py lines 1008-1042,
emitted only for the machine-type enumeration): per-entry arms, the `NUM`
arm returning the number of declared entries, then `default: panic`. -/
def base_level (t : SType) (v : Nat) : Option Nat :=
  match base_level_go 0 t.enums v with
  | some r => some r
  | none => if v == t.enums.length then some t.enums.length else none

/-- Scan of the per-entry `case` arms of the emitted
`MachineType_from_base_level` `switch` (Type.py lines 1055-1060): the arm
generated for position `i` matches input `i` and returns the entry at
position `i` (enum value `i`). -/
def from_base_level_go (i : Nat) (es : List Enumeration) (v : Nat) : Option Nat :=
  match es with
  | [] => none
  | _ :: rest => if v == i then some i else from_base_level_go (i + 1) rest v

/-- The emitted `MachineType_from_base_level` function (Type.py lines
1044-1068): per-entry arms then `default: panic`. -/
def from_base_level (t : SType) (v : Nat) : Option Nat :=
  from_base_level_go 0 t.enums v

/-! ### Declaration sequences -/

/-- One parsed field declaration, as handed to `addDataMember`. -/
structure MemberDecl where
  ident : String
  type : TypeRef
  pairs : Pairs
  init_code : String
  deriving DecidableEq

/-- Fold a sequence of `addDataMember` calls over a type. -/
def addMembers (t : SType) (l : List MemberDecl) : SType :=
  l.foldl (fun t d => addDataMemberS t d.ident d.type d.pairs d.init_code) t

/-- The declaration (insertion) order of a type's field identifiers. -/
def memberOrder (t : SType) : List String :=
  t.data_members.map (fun dm => dm.ident)

/-- The `DataMember` a declaration turns into (field name `m_<ident>`). -/
def declMember (d : MemberDecl) : DataMember :=
  mkDataMember d.ident d.type ("m_" ++ d.ident) d.pairs d.init_code

/-! ### Concrete sample symbols (used by witnesses and counterexamples) -/

/-- A primitive `int` type reference. -/
def intRef : TypeRef := ⟨"int", "int", [("primitive", "yes")], "int"⟩

/-- A `Set` type reference. -/
def setRef : TypeRef := ⟨"Set", "Set", [], "Set"⟩

/-- A `DataBlock` type reference. -/
def dataBlockRef : TypeRef := ⟨"DataBlock", "DataBlock", [], "DataBlock"⟩

/-- A `TimerTable` type reference. -/
def timerTableRef : TypeRef := ⟨"TimerTable", "TimerTable", [], "TimerTable"⟩

/-- A type reference whose generated identifier is the single letter `A`. -/
def aRef : TypeRef := ⟨"A", "A", [], "A"⟩

/-- A shared record type `Entry` with no annotation pairs. -/
def entryType : SType := mkType "" "Entry" [] true none

/-- `entryType` after a successful `addDataMember("A", int, ..)`. -/
def entryWithA : SType := addDataMemberS entryType "A" intRef [] ""

/-- A record type with one `TimerTable`-typed field `t`. -/
def timerFieldType : SType := addDataMemberS entryType "t" timerTableRef [] ""

/-- A record type with a `DataBlock` field `d` and a `TimerTable` field
`t`, in that declaration order. -/
def mixedType : SType :=
  addDataMemberS (addDataMemberS entryType "d" dataBlockRef [] "") "t" timerTableRef [] ""

/-- A global type `G` with one initialized `int` field `X`. -/
def globalType : SType :=
  addDataMemberS (mkType "" "G" [("global", "yes")] true none) "X" intRef [] "5"

/-- An enumeration type `Color` with entries `Red`, `Blue`. -/
def colorEnum : SType :=
  (addEnumB (addEnumB (mkType "" "Color" [("enumeration", "yes")] true none) "Red" []).2
    "Blue" []).2

/-- The machine-type enumeration with entries `L1Cache`, `L2Cache`,
`Directory`. -/
def machineTypeEnum : SType :=
  (addEnumB (addEnumB (addEnumB (mkType "" "MachineType" [("enumeration", "yes")] true none)
    "L1Cache" []).2 "L2Cache" []).2 "Directory" []).2

/-- A type whose identifier is `Cache` (a strict substring of
`CacheMemory`). -/
def cacheHook : SType := mkType "" "Cache" [] true none

end Slicc

namespace Slicc

/-! ### Auxiliary lemmas about the pair-bag operations -/

theorem pairsGet_pairsSet_self (p : Pairs) (k v : String) :
    pairsGet (pairsSet p k v) k = some v := by
  induction p with
  | nil => simp [pairsSet, pairsGet]
  | cons kv rest ih =>
    by_cases h : kv.1 == k
    · simp [pairsSet, pairsGet, h]
    · simp [pairsSet, pairsGet, h, ih]

theorem beq_symm_false (a b : String) (h : (a == b) = false) : (b == a) = false :=
  beq_eq_false_iff_ne.mpr (fun he => (beq_eq_false_iff_ne.mp h) he.symm)

theorem pairsGet_pairsSet_ne (p : Pairs) (k v k' : String) (h : (k' == k) = false) :
    pairsGet (pairsSet p k v) k' = pairsGet p k' := by
  have hkk' : (k == k') = false := beq_symm_false k' k h
  induction p with
  | nil => simp [pairsSet, pairsGet, hkk']
  | cons kv rest ih =>
    by_cases hh : kv.1 == k
    · have hkv : kv.1 = k := by simpa using hh
      simp [pairsSet, pairsGet, hh, hkv, hkk']
    · simp [pairsSet, pairsGet, hh, ih]

theorem pairsMem_pairsSet (p : Pairs) (k v k' : String) :
    pairsMem (pairsSet p k v) k' = ((k' == k) || pairsMem p k') := by
  by_cases h : k' == k
  · have : k' = k := by simpa using h
    subst this
    simp [pairsMem, pairsGet_pairsSet_self, h]
  · have hf : (k' == k) = false := by simpa using h
    simp [pairsMem, pairsGet_pairsSet_ne p k v k' hf, hf]

theorem pairsGet_append (p q : Pairs) (k : String) :
    pairsGet (p ++ q) k =
      match pairsGet p k with
      | some w => some w
      | none => pairsGet q k := by
  induction p with
  | nil => simp [pairsGet]
  | cons kv rest ih =>
    by_cases h : kv.1 == k
    · simp [pairsGet, h]
    · simp [pairsGet, h, ih]

theorem pairsMem_append_single (p : Pairs) (k v k' : String) :
    pairsMem (p ++ [(k, v)]) k' = (pairsMem p k' || (k == k')) := by
  unfold pairsMem
  rw [pairsGet_append]
  cases hg : pairsGet p k' with
  | some w => simp
  | none =>
    simp only [Option.isSome_none, Bool.false_or, pairsGet]
    by_cases hc : (k == k') = true
    · simp [hc]
    · simp [hc, pairsGet]

theorem pairsGet_pairsSetDefault_ne (p : Pairs) (k v k' : String)
    (h : (k' == k) = false) :
    pairsGet (pairsSetDefault p k v) k' = pairsGet p k' := by
  have hkk' : (k == k') = false := beq_symm_false k' k h
  unfold pairsSetDefault
  by_cases hm : pairsMem p k
  · rw [if_pos hm]
  · rw [if_neg hm, pairsGet_append]
    cases hg : pairsGet p k' with
    | some w => simp
    | none => simp [pairsGet, hkk']

theorem pairsMem_pairsSetDefault (p : Pairs) (k v k' : String) :
    pairsMem (pairsSetDefault p k v) k' = ((k' == k) || pairsMem p k') := by
  by_cases h : k' == k
  · have : k' = k := by simpa using h
    subst this
    unfold pairsSetDefault
    by_cases hm : pairsMem p k'
    · rw [if_pos hm]
      simp [hm]
    · rw [if_neg hm, pairsMem_append_single]
      simp
  · have hf : (k' == k) = false := by simpa using h
    simp [pairsMem, pairsGet_pairsSetDefault_ne p k v k' hf, hf]

/-- Membership after a conditionally applied hook assignment. -/
theorem pairsMem_ite_set (c : Bool) (p : Pairs) (k v k' : String) :
    pairsMem (if c then pairsSet p k v else p) k' =
      ((c && (k' == k)) || pairsMem p k') := by
  cases c <;> simp [pairsMem_pairsSet]

/-- Lookup after a conditionally applied hook assignment on another key. -/
theorem pairsGet_ite_set_ne (c : Bool) (p : Pairs) (k v k' : String)
    (h : (k' == k) = false) :
    pairsGet (if c then pairsSet p k v else p) k' = pairsGet p k' := by
  cases c <;> simp [pairsGet_pairsSet_ne _ _ _ _ h]

end Slicc

namespace Slicc

/-! ### Claim theorems -/

/-- C1: `addDataMember(f, type, pairs, init)` returns false and performs no
mutation when `f` is already a key of the data-member mapping (the stored
members, pairs and the symbol-table registrations are all unchanged); when
`f` is fresh it returns true, appends a `DataMember` with generated field
name `m_<f>` at the end of the ordered member mapping, and registers it in
the owning symbol table under `f`. -/
theorem addDataMember_contract (t : SType) (f : String) (ty : TypeRef)
    (ps : Pairs) (init : String) :
    ((∃ dm ∈ t.data_members, dm.ident = f) →
      addDataMemberB t f ty ps init = (false, t)) ∧
    ((∀ dm ∈ t.data_members, dm.ident ≠ f) →
      (addDataMemberB t f ty ps init).1 = true ∧
      (addDataMemberB t f ty ps init).2.data_members =
        t.data_members ++ [mkDataMember f ty ("m_" ++ f) ps init] ∧
      (mkDataMember f ty ("m_" ++ f) ps init).code = "m_" ++ f ∧
      (addDataMemberB t f ty ps init).2.symtabLog =
        t.symtabLog ++ [(f, mkDataMember f ty ("m_" ++ f) ps init)] ∧
      (addDataMemberB t f ty ps init).2.pairs = t.pairs ∧
      (addDataMemberB t f ty ps init).2.enums = t.enums) := by
  constructor
  · rintro ⟨dm, hdm, hid⟩
    have hfind : (t.data_members.find? (fun dm => dm.ident == f)).isSome := by
      rw [List.find?_isSome]
      exact ⟨dm, hdm, by simp [hid]⟩
    simp [addDataMemberB, hfind]
  · intro hfresh
    have hfind : (t.data_members.find? (fun dm => dm.ident == f)) = none := by
      rw [List.find?_eq_none]
      intro dm hdm
      simp [hfresh dm hdm]
    simp [addDataMemberB, hfind, mkDataMember]

/-- Witness for C1 at a concrete type: re-adding the existing field `A`
fails without mutation, adding the fresh field `B` succeeds with field name
`m_B`, appended member and symbol-table registration. -/
theorem addDataMember_contract_witness :
    addDataMemberB entryWithA "A" intRef [] "" = (false, entryWithA) ∧
    (addDataMemberB entryWithA "B" intRef [] "").1 = true ∧
    (addDataMemberB entryWithA "B" intRef [] "").2.data_members =
      entryWithA.data_members ++ [mkDataMember "B" intRef "m_B" [] ""] ∧
    (addDataMemberB entryWithA "B" intRef [] "").2.symtabLog =
      entryWithA.symtabLog ++ [("B", mkDataMember "B" intRef "m_B" [] "")] := by
  refine ⟨?_, ?_, ?_, ?_⟩
  · exact (addDataMember_contract entryWithA "A" intRef [] "").1
      ⟨mkDataMember "A" intRef "m_A" [] "", by decide, rfl⟩
  · exact ((addDataMember_contract entryWithA "B" intRef [] "").2 (by decide)).1
  · exact ((addDataMember_contract entryWithA "B" intRef [] "").2 (by decide)).2.1
  · exact ((addDataMember_contract entryWithA "B" intRef [] "").2 (by decide)).2.2.2.1

/-- C2: `addEnum(e, pairs)` returns false without mutation when `e` is
already registered; otherwise it appends the entry and returns true, and
when the type had no `default` pair the call sets it to exactly
`<generated_identifier>_NUM`, while a type whose `default` pair is already
present keeps its pair bag unchanged (so no later `addEnum` ever changes an
existing `default`). -/
theorem addEnum_default_contract (t : SType) (e : String) (ps : Pairs) :
    ((∃ en ∈ t.enums, en.ident = e) → addEnumB t e ps = (false, t)) ∧
    ((∀ en ∈ t.enums, en.ident ≠ e) →
      (addEnumB t e ps).1 = true ∧
      (addEnumB t e ps).2.enums = t.enums ++ [⟨e, ps, false⟩] ∧
      (pairsMem t.pairs "default" = false →
        pairsGet (addEnumB t e ps).2.pairs "default" = some (t.c_ident ++ "_NUM")) ∧
      (pairsMem t.pairs "default" = true →
        (addEnumB t e ps).2.pairs = t.pairs)) := by
  constructor
  · rintro ⟨en, hen, hid⟩
    have hfind : (t.enums.find? (fun en => en.ident == e)).isSome := by
      rw [List.find?_isSome]
      exact ⟨en, hen, by simp [hid]⟩
    simp [addEnumB, hfind]
  · intro hfresh
    have hfind : (t.enums.find? (fun en => en.ident == e)) = none := by
      rw [List.find?_eq_none]
      intro en hen
      simp [hfresh en hen]
    refine ⟨?_, ?_, ?_, ?_⟩
    · by_cases hd : pairsMem t.pairs "default" <;> simp [addEnumB, hfind, hd]
    · by_cases hd : pairsMem t.pairs "default" <;> simp [addEnumB, hfind, hd]
    · intro hd
      simp [addEnumB, hfind, hd, pairsGet_pairsSet_self]
    · intro hd
      simp [addEnumB, hfind, hd]

/-- Witness for C2 at a concrete type: the first `addEnum` on `Color` sets
`default` to `Color_NUM`, the second (different identifier) leaves it
unchanged, and re-adding `Red` fails without mutation. -/
theorem addEnum_default_contract_witness :
    ((addEnumB (mkType "" "Color" [("enumeration", "yes")] true none) "Red" []).1 = true ∧
      pairsGet (addEnumB (mkType "" "Color" [("enumeration", "yes")] true none) "Red" []).2.pairs
        "default" = some ("Color" ++ "_NUM")) ∧
    (addEnumB colorEnum "Red" []).2.pairs = colorEnum.pairs ∧
    addEnumB colorEnum "Red" [] = (false, colorEnum) := by
  refine ⟨⟨?_, ?_⟩, ?_, ?_⟩
  · exact ((addEnum_default_contract (mkType "" "Color" [("enumeration", "yes")] true none)
      "Red" []).2 (by decide)).1
  · exact ((addEnum_default_contract (mkType "" "Color" [("enumeration", "yes")] true none)
      "Red" []).2 (by decide)).2.2.1 (by decide)
  · have h := (addEnum_default_contract colorEnum "Red" []).1
      ⟨⟨"Red", [], false⟩, by decide, rfl⟩
    rw [h]
  · exact (addEnum_default_contract colorEnum "Red" []).1
      ⟨⟨"Red", [], false⟩, by decide, rfl⟩

/-- `checkEnum` never changes which identifiers are registered. -/
theorem checkEnumS_enum_idents (t : SType) (i : String) :
    (checkEnumS t i).enums.map (fun e => e.ident) = t.enums.map (fun e => e.ident) := by
  unfold checkEnumS checkEnumB
  split
  · have hfun : (fun e : Enumeration =>
        (if e.ident == i then { e with primary := true } else e).ident) =
        (fun e : Enumeration => e.ident) := by
      funext e
      split <;> rfl
    simp only [List.map_map]
    rw [show ((fun e : Enumeration => e.ident) ∘
        (fun e : Enumeration => if e.ident == i then { e with primary := true } else e)) =
        (fun e : Enumeration => e.ident) from funext (fun e => by simp only [Function.comp]; split <;> rfl)]
  · rfl

/-- A claimed (primary) entry stays claimed across any `checkEnum` call. -/
theorem enumClaimed_checkEnumS (t : SType) (i e : String)
    (h : enumClaimed t e = true) : enumClaimed (checkEnumS t i) e = true := by
  unfold checkEnumS checkEnumB
  split
  · unfold enumClaimed at h ⊢
    rw [List.any_eq_true] at h ⊢
    obtain ⟨en, hen, hp⟩ := h
    rw [Bool.and_eq_true] at hp
    refine ⟨if en.ident == i then { en with primary := true } else en,
      List.mem_map_of_mem _ hen, ?_⟩
    by_cases hc : en.ident == i <;> simp [hc, hp.1, hp.2]
  · exact h

/-- A claimed entry stays claimed across any sequence of `checkEnum` calls. -/
theorem enumClaimed_checkEnumMany (t : SType) (l : List String) (e : String)
    (h : enumClaimed t e = true) : enumClaimed (checkEnumMany t l) e = true := by
  induction l generalizing t with
  | nil => exact h
  | cons i rest ih => exact ih _ (enumClaimed_checkEnumS t i e h)

/-- Sequences of `checkEnum` calls never change the registered idents. -/
theorem checkEnumMany_enum_idents (t : SType) (l : List String) :
    (checkEnumMany t l).enums.map (fun e => e.ident) = t.enums.map (fun e => e.ident) := by
  induction l generalizing t with
  | nil => rfl
  | cons i rest ih => rw [checkEnumMany, List.foldl_cons, ← checkEnumMany, ih, checkEnumS_enum_idents]

/-- On a type with uniquely-named entries, `checkEnum` of an already-claimed
identifier fails without mutation. -/
theorem checkEnumB_of_claimed (t : SType) (e : String)
    (hnd : (t.enums.map (fun en => en.ident)).Nodup)
    (h : enumClaimed t e = true) : checkEnumB t e = (false, t) := by
  unfold enumClaimed at h
  rw [List.any_eq_true] at h
  obtain ⟨en, hen, hp⟩ := h
  rw [Bool.and_eq_true] at hp
  have hfind : t.enums.find? (fun x => x.ident == e && !x.primary) = none := by
    rw [List.find?_eq_none]
    intro x hx
    by_cases hxe : (x.ident == e) = true
    · have hxen : x = en := by
        apply List.inj_on_of_nodup_map hnd hx hen
        rw [eq_of_beq hxe, eq_of_beq hp.1]
      subst hxen
      simp [hp.2]
    · simp [hxe]
  unfold checkEnumB
  rw [hfind]
  simp

/-- C3: over a type's lifetime `checkEnum` returns true exactly once per
registered entry: it fails (without mutation) on unregistered identifiers;
the first call on a registered, not-yet-primary entry succeeds and marks it
claimed; once an entry is claimed, the call fails without mutation, and it
still fails after any further sequence of `checkEnum` calls. -/
theorem checkEnum_claim_once (t : SType) (e : String)
    (hnd : (t.enums.map (fun en => en.ident)).Nodup) :
    ((∀ en ∈ t.enums, en.ident ≠ e) → checkEnumB t e = (false, t)) ∧
    (∀ en ∈ t.enums, en.ident = e → en.primary = false →
      (checkEnumB t e).1 = true ∧ enumClaimed (checkEnumB t e).2 e = true) ∧
    (enumClaimed t e = true → checkEnumB t e = (false, t)) ∧
    (enumClaimed t e = true →
      ∀ l, (checkEnumB (checkEnumMany t l) e).1 = false) := by
  refine ⟨?_, ?_, ?_, ?_⟩
  · intro hfresh
    have hfind : t.enums.find? (fun x => x.ident == e && !x.primary) = none := by
      rw [List.find?_eq_none]
      intro x hx
      simp [hfresh x hx]
    unfold checkEnumB
    rw [hfind]
    simp
  · intro en hen hid hprim
    have hfind : (t.enums.find? (fun x => x.ident == e && !x.primary)).isSome := by
      rw [List.find?_isSome]
      exact ⟨en, hen, by simp [hid, hprim]⟩
    constructor
    · simp [checkEnumB, hfind]
    · unfold checkEnumB
      rw [if_pos hfind]
      unfold enumClaimed
      rw [List.any_eq_true]
      refine ⟨if en.ident == e then { en with primary := true } else en,
        List.mem_map_of_mem _ hen, ?_⟩
      simp [hid]
  · exact checkEnumB_of_claimed t e hnd
  · intro hcl l
    have hnd' : ((checkEnumMany t l).enums.map (fun en => en.ident)).Nodup := by
      rw [checkEnumMany_enum_idents]
      exact hnd
    rw [checkEnumB_of_claimed (checkEnumMany t l) e hnd'
      (enumClaimed_checkEnumMany t l e hcl)]

/-- Witness for C3 at a concrete enumeration: an unregistered identifier
fails, the first call on `Red` succeeds, and after that claim every later
call for `Red` (here after furthermore checking `Blue` and `Red` again)
fails. -/
theorem checkEnum_claim_once_witness :
    checkEnumB colorEnum "Green" = (false, colorEnum) ∧
    (checkEnumB colorEnum "Red").1 = true ∧
    (checkEnumB (checkEnumMany (checkEnumS colorEnum "Red") ["Blue", "Red"]) "Red").1 = false := by
  refine ⟨?_, ?_, ?_⟩
  · exact (checkEnum_claim_once colorEnum "Green" (by decide)).1 (by decide)
  · exact ((checkEnum_claim_once colorEnum "Red" (by decide)).2.1
      ⟨"Red", [], false⟩ (by decide) rfl rfl).1
  · exact (checkEnum_claim_once (checkEnumS colorEnum "Red") "Red" (by decide)).2.2.2
      (by decide) ["Blue", "Red"]

/-- Membership in the pair bag produced by the `Type.__init__` hooks, as a
function of the original pairs and the hook conditions. -/
theorem pairsMem_hookPairs (ident : String) (p0 : Pairs) (k : String) :
    pairsMem (hookPairs ident p0) k =
      (((ident == "Prefetcher") && (k == "prefetcher")) ||
        (((ident == "PersistentTable") && (k == "persistent")) ||
          (((ident == "DirectoryMemory") && (k == "dir")) ||
            (((ident == "TimerTable") && (k == "timer")) ||
              ((substrOf ident "TBETable" && (k == "tbe")) ||
                ((substrOf ident "CacheMemory" && (k == "cache")) ||
                  (((match pairsGet p0 "interface" with
                      | some iface => substrOf iface "Message"
                      | none => false) && (k == "message")) ||
                    ((k == "desc") || pairsMem p0 k)))))))) := by
  have hdesc : ("interface" == "desc") = false := by decide
  simp only [hookPairs]
  rw [pairsMem_ite_set, pairsMem_ite_set, pairsMem_ite_set, pairsMem_ite_set,
    pairsMem_ite_set, pairsMem_ite_set]
  rw [pairsGet_pairsSetDefault_ne p0 "desc" "No description avaliable" "interface" hdesc]
  cases hif : pairsGet p0 "interface" with
  | none =>
    rw [pairsMem_pairsSetDefault]
    simp
  | some iface =>
    rw [pairsMem_ite_set, pairsMem_pairsSetDefault]

/-- Counterexample to C4 as stated: a type whose identifier is `Cache`
(not equal to `CacheMemory`) still gets the `cache` pair set at
construction, because the source's `self.ident in ("CacheMemory")` is a
Python substring test, not an equality against a tuple. -/
theorem typeInit_exact_match_cex :
    pairsMem cacheHook.pairs "cache" = true ∧ cacheHook.ident ≠ "CacheMemory" := by
  decide

/-- C4 (amended): `Type` construction sets the collaborator pairs by
fixed-name matching, where `timer`, `dir`, `persistent` and `prefetcher`
are set exactly when the identifier equals `TimerTable`,
`DirectoryMemory`, `PersistentTable`, `Prefetcher` respectively, but
`cache` and `tbe` are set exactly when the identifier is a contiguous
substring of `CacheMemory` resp. `TBETable` (which holds in particular for
the exact names), and the `message` pair is force-set exactly when the
`interface` pair's value is a contiguous substring of `Message` (each `||`
with the pair already being present in the declared pairs). -/
theorem typeInit_flag_hooks (protocol ident : String) (p0 : Pairs)
    (shared : Bool) (machine : Option String) :
    pairsMem (mkType protocol ident p0 shared machine).pairs "cache" =
      (substrOf ident "CacheMemory" || pairsMem p0 "cache") ∧
    pairsMem (mkType protocol ident p0 shared machine).pairs "tbe" =
      (substrOf ident "TBETable" || pairsMem p0 "tbe") ∧
    pairsMem (mkType protocol ident p0 shared machine).pairs "timer" =
      ((ident == "TimerTable") || pairsMem p0 "timer") ∧
    pairsMem (mkType protocol ident p0 shared machine).pairs "dir" =
      ((ident == "DirectoryMemory") || pairsMem p0 "dir") ∧
    pairsMem (mkType protocol ident p0 shared machine).pairs "persistent" =
      ((ident == "PersistentTable") || pairsMem p0 "persistent") ∧
    pairsMem (mkType protocol ident p0 shared machine).pairs "prefetcher" =
      ((ident == "Prefetcher") || pairsMem p0 "prefetcher") ∧
    pairsMem (mkType protocol ident p0 shared machine).pairs "message" =
      ((match pairsGet p0 "interface" with
        | some iface => substrOf iface "Message"
        | none => false) || pairsMem p0 "message") := by
  have hpairs : (mkType protocol ident p0 shared machine).pairs = hookPairs ident p0 := by
    simp [mkType]
  refine ⟨?_, ?_, ?_, ?_, ?_, ?_, ?_⟩ <;>
    rw [hpairs, pairsMem_hookPairs] <;>
    cases hif : pairsGet p0 "interface" <;>
    simp

/-- Folding a sequence of fresh, uniquely-named `addDataMember` calls
appends exactly the declared members, in call order, and touches neither
the pair bag nor the generated identifier. -/
theorem addMembers_spec (t : SType) (l : List MemberDecl)
    (hfresh : ∀ d ∈ l, ∀ dm ∈ t.data_members, dm.ident ≠ d.ident)
    (hnd : (l.map (fun d => d.ident)).Nodup) :
    (addMembers t l).data_members = t.data_members ++ l.map declMember ∧
    (addMembers t l).pairs = t.pairs ∧
    (addMembers t l).c_ident = t.c_ident := by
  induction l generalizing t with
  | nil => simp [addMembers]
  | cons d rest ih =>
    have hfind : (t.data_members.find? (fun dm => dm.ident == d.ident)) = none := by
      rw [List.find?_eq_none]
      intro dm hdm
      simp [hfresh d (by simp) dm hdm]
    have hstep : addDataMemberS t d.ident d.type d.pairs d.init_code =
        { t with
          data_members := t.data_members ++ [declMember d]
          symtabLog := t.symtabLog ++ [(d.ident, declMember d)] } := by
      simp [addDataMemberS, addDataMemberB, hfind, declMember]
    have hrw : addMembers t (d :: rest) =
        addMembers (addDataMemberS t d.ident d.type d.pairs d.init_code) rest := rfl
    have hfresh' : ∀ d' ∈ rest, ∀ dm ∈ t.data_members ++ [declMember d],
        dm.ident ≠ d'.ident := by
      intro d' hd' dm hdm
      rcases List.mem_append.mp hdm with hdm | hdm
      · exact hfresh d' (List.mem_cons_of_mem _ hd') dm hdm
      · have hdm' : dm = declMember d := by simpa using hdm
        subst hdm'
        have hni := (List.nodup_cons.mp hnd).1
        intro he
        apply hni
        rw [show (declMember d).ident = d.ident from rfl] at he
        simpa [he] using List.mem_map_of_mem (fun x => x.ident) hd'
    have hnd' := (List.nodup_cons.mp hnd).2
    obtain ⟨h1, h2, h3⟩ := ih (addDataMemberS t d.ident d.type d.pairs d.init_code)
      (by rw [hstep]; exact hfresh') hnd'
    rw [hstep] at h1 h2 h3
    refine ⟨?_, ?_, ?_⟩
    · rw [hrw, hstep, h1]
      simp
    · rw [hrw, hstep, h2]
    · rw [hrw, hstep, h3]

/-- C7: after any sequence of successful `addDataMember` calls on a
non-global record type with no prior members, the full-value constructor's
parameter order, the `print` body's field order, the const/non-const
accessor order and the mutator order all coincide with the declaration
(insertion) order — for any permutation of the declarations. -/
theorem declaration_order_preserved (t : SType) (l : List MemberDecl)
    (h0 : t.data_members = []) (hg : t.isGlobal = false)
    (hnd : (l.map (fun d => d.ident)).Nodup) :
    fullCtorParams (addMembers t l) =
      l.map (fun d => "const " ++ (declMember d).real_c_type ++ "& local_" ++ d.ident) ∧
    printBodyLines (addMembers t l) =
      l.map (fun d =>
        if d.type.c_ident == "Addr" then
          "out << \"" ++ d.ident ++ " = \" << printAddress(m_" ++ d.ident ++
            ", block_size_bits) << \" \";"
        else
          "out << \"" ++ d.ident ++ " = \" << m_" ++ d.ident ++ " << \" \";") ∧
    constAccessorLines (addMembers t l) =
      l.map (fun d => "const " ++ (declMember d).real_c_type ++ "& get" ++ d.ident ++ "() const") ∧
    accessorLines (addMembers t l) =
      l.map (fun d => (declMember d).real_c_type ++ "& get" ++ d.ident ++ "()") ∧
    mutatorLines (addMembers t l) =
      l.map (fun d =>
        "void set" ++ d.ident ++ "(const " ++ (declMember d).real_c_type ++ "& local_" ++ d.ident ++ ")") ∧
    memberOrder (addMembers t l) = l.map (fun d => d.ident) := by
  have hm := (addMembers_spec t l (by rw [h0]; simp) hnd).1
  rw [h0, List.nil_append] at hm
  refine ⟨?_, ?_, ?_, ?_, ?_, ?_⟩ <;>
    simp [fullCtorParams, printBodyLines, constAccessorLines, accessorLines,
      mutatorLines, memberOrder, hm, List.map_map, declMember, mkDataMember]

/-- Witness for C7 at a concrete permuted declaration list: declaring
`DataBlk` before `Owner` (the reverse of the spec's example order) yields
constructor parameters, print statements and accessors in exactly that
insertion order. -/
theorem declaration_order_preserved_witness :
    fullCtorParams (addMembers entryType
        [⟨"DataBlk", dataBlockRef, [], ""⟩, ⟨"Owner", setRef, [], ""⟩]) =
      ["const DataBlock& local_DataBlk", "const Set& local_Owner"] ∧
    memberOrder (addMembers entryType
        [⟨"DataBlk", dataBlockRef, [], ""⟩, ⟨"Owner", setRef, [], ""⟩]) =
      ["DataBlk", "Owner"] ∧
    mutatorLines (addMembers entryType
        [⟨"DataBlk", dataBlockRef, [], ""⟩, ⟨"Owner", setRef, [], ""⟩]) =
      ["void setDataBlk(const DataBlock& local_DataBlk)",
       "void setOwner(const Set& local_Owner)"] := by
  refine ⟨?_, ?_, ?_⟩
  · exact ((declaration_order_preserved entryType
      [⟨"DataBlk", dataBlockRef, [], ""⟩, ⟨"Owner", setRef, [], ""⟩]
      (by decide) (by decide) (by decide)).1).trans (by decide)
  · exact ((declaration_order_preserved entryType
      [⟨"DataBlk", dataBlockRef, [], ""⟩, ⟨"Owner", setRef, [], ""⟩]
      (by decide) (by decide) (by decide)).2.2.2.2.2).trans (by decide)
  · exact ((declaration_order_preserved entryType
      [⟨"DataBlk", dataBlockRef, [], ""⟩, ⟨"Owner", setRef, [], ""⟩]
      (by decide) (by decide) (by decide)).2.2.2.2.1).trans (by decide)

/-- Wrapping a string between two fixed literals is injective. -/
theorem append_mid_injective (pre suf : String) :
    Function.Injective (fun a => pre ++ a ++ suf) := by
  intro a b h
  have hd := congrArg String.data h
  simp only [String.data_append] at hd
  exact String.ext (List.append_cancel_left (List.append_cancel_right hd))

/-- Counterexample to C5 as stated: a record type with a `TimerTable` field
`t` — the field's kind is block-size-dependent and the emitted
`initBlockSize` body forwards the block size to it, but the field appears
in no constructor initializer list (neither the default constructor's nor
the full-value constructor's): it is default-constructed, contradicting the
claim that every block-size-dependent field is initializer-list-initialized
with the block size (or 0). -/
theorem blockSize_ctor_init_cex :
    (∃ dm ∈ timerFieldType.data_members, needs_block_size.contains dm.real_c_type = true) ∧
    initBlockSizeStmts timerFieldType = ["m_t.setBlockSize(block_size);"] ∧
    defaultCtorInitList timerFieldType = [] ∧
    fullCtorInitList timerFieldType = [] := by
  decide

/-- C5 (amended): in every record type, the emitted `initBlockSize` body
contains exactly one propagation statement per field of a
block-size-dependent kind, in declaration order and nothing else; but only
the `DataBlock` and `WriteMask` kinds are initialized via the constructor
initializer list (with the given block size for message/TBE types, or 0 in
the plain default constructor) — fields of the other three kinds
(`PersistentTable`, `TimerTable`, `PerfectCacheMemory`) are
default-constructed and receive the block size only through
`initBlockSize`. -/
theorem blockSize_propagation (t : SType) (hnd : (memberOrder t).Nodup) :
    (∀ dm ∈ t.data_members, needs_block_size.contains dm.real_c_type = true →
      (initBlockSizeStmts t).count ("m_" ++ dm.ident ++ ".setBlockSize(block_size);") = 1) ∧
    List.Sublist (initBlockSizeStmts t)
      (t.data_members.map (fun dm => "m_" ++ dm.ident ++ ".setBlockSize(block_size);")) ∧
    (∀ s ∈ initBlockSizeStmts t, ∃ dm ∈ t.data_members,
      needs_block_size.contains dm.real_c_type = true ∧
      s = "m_" ++ dm.ident ++ ".setBlockSize(block_size);") ∧
    (t.isMessage = true → ∀ dm ∈ t.data_members,
      (dm.real_c_type = "DataBlock" ∨ dm.real_c_type = "WriteMask") →
      ("m_" ++ dm.ident ++ "(blockSize)") ∈ defaultCtorInitList t) ∧
    (t.isMessage = false → t.isTBE = true → ∀ dm ∈ t.data_members,
      (dm.real_c_type = "DataBlock" ∨ dm.real_c_type = "WriteMask") →
      ("m_" ++ dm.ident ++ "(block_size)") ∈ defaultCtorInitList t) ∧
    (t.isMessage = false → t.isTBE = false → ∀ dm ∈ t.data_members,
      (dm.real_c_type = "DataBlock" ∨ dm.real_c_type = "WriteMask") →
      ("m_" ++ dm.ident ++ "(0)") ∈ defaultCtorInitList t) ∧
    (∀ s ∈ defaultCtorInitList t, ∃ dm ∈ t.data_members,
      dm.real_c_type = "DataBlock" ∨ dm.real_c_type = "WriteMask") := by
  have hblock : ∀ dm : DataMember,
      (dm.real_c_type == "DataBlock" || dm.real_c_type == "WriteMask") = true ↔
      (dm.real_c_type = "DataBlock" ∨ dm.real_c_type = "WriteMask") := by
    intro dm
    simp
  refine ⟨?_, ?_, ?_, ?_, ?_, ?_, ?_⟩
  · intro dm hdm hns
    have hinj : Function.Injective
        (fun a : String => "m_" ++ a ++ ".setBlockSize(block_size);") :=
      append_mid_injective "m_" ".setBlockSize(block_size);"
    have hrw : initBlockSizeStmts t =
        ((t.data_members.filter (fun dm => needs_block_size.contains dm.real_c_type)).map
          (fun dm => dm.ident)).map
          (fun a => "m_" ++ a ++ ".setBlockSize(block_size);") := by
      simp [initBlockSizeStmts, List.map_map]
    rw [hrw, List.count_map_of_injective _ _ hinj]
    apply List.count_eq_one_of_mem
    · exact List.Nodup.sublist
        (List.Sublist.map (fun dm => dm.ident) (List.filter_sublist t.data_members)) hnd
    · exact List.mem_map_of_mem _ (List.mem_filter.mpr ⟨hdm, hns⟩)
  · exact List.Sublist.map _ (List.filter_sublist t.data_members)
  · intro s hs
    rw [initBlockSizeStmts, List.mem_map] at hs
    obtain ⟨dm, hdm, hsv⟩ := hs
    rw [List.mem_filter] at hdm
    exact ⟨dm, hdm.1, hdm.2, hsv.symm⟩
  · intro hmsg dm hdm hk
    simp only [defaultCtorInitList, hmsg, if_true]
    exact List.mem_map_of_mem _
      (List.mem_filter.mpr ⟨hdm, (hblock dm).mpr hk⟩)
  · intro hmsg htbe dm hdm hk
    simp only [defaultCtorInitList, hmsg, htbe, Bool.false_eq_true, if_false, if_true]
    exact List.mem_map_of_mem _
      (List.mem_filter.mpr ⟨hdm, (hblock dm).mpr hk⟩)
  · intro hmsg htbe dm hdm hk
    simp only [defaultCtorInitList, hmsg, htbe, Bool.false_eq_true, if_false]
    exact List.mem_map_of_mem _
      (List.mem_filter.mpr ⟨hdm, (hblock dm).mpr hk⟩)
  · intro s hs
    unfold defaultCtorInitList at hs
    have hcore : ∀ f : DataMember → String,
        s ∈ (blockInitMembers t).map f →
        ∃ dm ∈ t.data_members,
          dm.real_c_type = "DataBlock" ∨ dm.real_c_type = "WriteMask" := by
      intro f hf
      rw [List.mem_map] at hf
      obtain ⟨dm, hdm, _⟩ := hf
      rw [blockInitMembers, List.mem_filter] at hdm
      exact ⟨dm, hdm.1, (hblock dm).mp hdm.2⟩
    by_cases hmsg : t.isMessage = true
    · rw [if_pos hmsg] at hs
      exact hcore _ hs
    · rw [if_neg hmsg] at hs
      by_cases htbe : t.isTBE = true
      · rw [if_pos htbe] at hs
        exact hcore _ hs
      · rw [if_neg htbe] at hs
        exact hcore _ hs

/-- Witness for C5 at a concrete type with one `DataBlock` field `d` and one
`TimerTable` field `t`: the `initBlockSize` body forwards to the
`TimerTable` field exactly once, and the `DataBlock` field is initialized
with 0 in the default constructor. -/
theorem blockSize_propagation_witness :
    (initBlockSizeStmts mixedType).count "m_t.setBlockSize(block_size);" = 1 ∧
    "m_d(0)" ∈ defaultCtorInitList mixedType := by
  constructor
  · exact ((blockSize_propagation mixedType (by decide)).1
      (mkDataMember "t" timerTableRef "m_t" [] "") (by decide) (by decide)).trans rfl
  · exact (blockSize_propagation mixedType (by decide)).2.2.2.2.2.1
      (by decide) (by decide)
      (mkDataMember "d" dataBlockRef "m_d" [] "") (by decide) (by decide)

/-- On a global type whose non-abstract fields all carry an initializer,
the storage-declaration loop succeeds and emits, for every non-abstract
field, a `static const` class-scope constant carrying that initializer. -/
theorem fieldDeclsOf_global (ms : List DataMember)
    (hinit : ∀ dm ∈ ms, pairsMem dm.pairs "abstract" = false → dm.init_code ≠ "") :
    ∃ ls, fieldDeclsOf true ms = some ls ∧
      ∀ dm ∈ ms, pairsMem dm.pairs "abstract" = false →
        ("static const " ++ dm.real_c_type ++ " m_" ++ dm.ident ++ " = " ++
          dm.init_code ++ ";") ∈ ls := by
  induction ms with
  | nil => exact ⟨[], rfl, by simp⟩
  | cons dm rest ih =>
    obtain ⟨ls, hls, hmem⟩ := ih (fun x hx => hinit x (List.mem_cons_of_mem _ hx))
    by_cases hab : pairsMem dm.pairs "abstract" = true
    · refine ⟨ls, ?_, ?_⟩
      · simp [fieldDeclsOf, hab, hls]
      · intro x hx hxab
        rcases List.mem_cons.mp hx with rfl | hx
        · rw [hab] at hxab
          cases hxab
        · exact hmem x hx hxab
    · have habf : pairsMem dm.pairs "abstract" = false := by simpa using hab
      have hi : dm.init_code ≠ "" := hinit dm (by simp) habf
      have hibool : (dm.init_code != "") = true := by simpa using hi
      refine ⟨(match pairsGet dm.pairs "desc" with
               | some d => ["/** " ++ d ++ " */"]
               | none => []) ++
              ("static const " ++ dm.real_c_type ++ " m_" ++ dm.ident ++ " = " ++
                dm.init_code ++ ";") :: ls, ?_, ?_⟩
      · simp only [fieldDeclsOf, habf, Bool.false_eq_true, if_false, fieldDeclLine,
          hibool, Bool.true_and, Bool.not_true, Bool.and_false, hls]
        cases hdesc : pairsGet dm.pairs "desc" <;>
          simp [hdesc, String.append_assoc]
      · intro x hx hxab
        rcases List.mem_cons.mp hx with rfl | hx
        · simp
        · exact List.mem_append_right _ (List.mem_cons_of_mem _ (hmem x hx hxab))

/-- C9: a `Type` with the global capability flag never emits the
parameterized full-value constructor, however many fields it has, and each
of its non-abstract fields (all of which must carry an initializer) is
emitted as a `static const` class-scope constant whose declaration carries
the field's initializer expression. -/
theorem global_type_contract (t : SType) (hg : t.isGlobal = true)
    (hinit : ∀ dm ∈ t.data_members,
      pairsMem dm.pairs "abstract" = false → dm.init_code ≠ "") :
    fullCtorLines t = [] ∧
    (fieldDeclLines t).isSome = true ∧
    ∀ dm ∈ t.data_members, pairsMem dm.pairs "abstract" = false →
      ("static const " ++ dm.real_c_type ++ " m_" ++ dm.ident ++ " = " ++
        dm.init_code ++ ";") ∈ (fieldDeclLines t).getD [] := by
  obtain ⟨ls, hls, hmem⟩ := fieldDeclsOf_global t.data_members hinit
  have hfl : fieldDeclLines t = some ls := by
    rw [fieldDeclLines, hg]
    exact hls
  refine ⟨?_, ?_, ?_⟩
  · simp [fullCtorLines, hg]
  · rw [hfl]
    rfl
  · intro dm hdm hab
    rw [hfl]
    exact hmem dm hdm hab

/-- Witness for C9 at a concrete global type with one initialized field:
no full-value constructor is emitted and the field becomes a class-scope
constant with its initializer. -/
theorem global_type_contract_witness :
    fullCtorLines globalType = [] ∧
    (fieldDeclLines globalType).isSome = true ∧
    "static const int m_X = 5;" ∈ (fieldDeclLines globalType).getD [] := by
  refine ⟨?_, ?_, ?_⟩
  · exact (global_type_contract globalType (by decide) (by decide)).1
  · exact (global_type_contract globalType (by decide) (by decide)).2.1
  · exact (global_type_contract globalType (by decide) (by decide)).2.2
      (mkDataMember "X" intRef "m_X" [] "5") (by decide) (by decide)

/-- The to-string case chain misses every value past its entries. -/
theorem enum_to_string_go_ge (es : List Enumeration) (i v : Nat)
    (h : i + es.length ≤ v) : enum_to_string_go i es v = none := by
  induction es generalizing i with
  | nil => rfl
  | cons e rest ih =>
    have hne : v ≠ i := by
      simp only [List.length_cons] at h
      omega
    rw [enum_to_string_go, if_neg (by simp [hne])]
    apply ih
    simp only [List.length_cons] at h
    omega

/-- The to-string case chain maps the value of the entry at offset `k` to
that entry's identifier. -/
theorem enum_to_string_go_at (es : List Enumeration) (i k : Nat) (h : k < es.length) :
    enum_to_string_go i es (i + k) = some ((es.get ⟨k, h⟩).ident) := by
  induction es generalizing i k with
  | nil => exact absurd h (Nat.not_lt_zero k)
  | cons e rest ih =>
    cases k with
    | zero => simp [enum_to_string_go]
    | succ k' =>
      have hne : (i + (k' + 1)) ≠ i := by omega
      rw [enum_to_string_go, if_neg (by simp [hne]),
        show i + (k' + 1) = (i + 1) + k' from by omega]
      exact ih (i + 1) k' (Nat.lt_of_succ_lt_succ h)

/-- On uniquely-named entries, the string-to-enum chain maps the identifier
of the entry at offset `k` back to that entry's value. -/
theorem string_to_enum_go_at (es : List Enumeration) (i k : Nat)
    (hnd : (es.map (fun e => e.ident)).Nodup) (h : k < es.length) :
    string_to_enum_go i es ((es.get ⟨k, h⟩).ident) = some (i + k) := by
  induction es generalizing i k with
  | nil => exact absurd h (Nat.not_lt_zero k)
  | cons e rest ih =>
    rw [List.map_cons, List.nodup_cons] at hnd
    cases k with
    | zero => simp [string_to_enum_go]
    | succ k' =>
      have h' : k' < rest.length := Nat.lt_of_succ_lt_succ h
      have hget : (rest.get ⟨k', h'⟩).ident ∈ rest.map (fun e => e.ident) :=
        List.mem_map_of_mem _ (List.get_mem rest k' h')
      have hne : (rest.get ⟨k', h'⟩).ident ≠ e.ident := by
        intro he
        apply hnd.1
        rw [← he]
        exact hget
      show string_to_enum_go i (e :: rest) ((rest.get ⟨k', h'⟩).ident) = some (i + (k' + 1))
      rw [string_to_enum_go, if_neg (by simpa using hne),
        show i + (k' + 1) = (i + 1) + k' from by omega]
      exact ih (i + 1) k' hnd.2 h'

/-- The string-to-enum chain rejects any text that names no entry. -/
theorem string_to_enum_go_none (es : List Enumeration) (i : Nat) (s : String)
    (h : ∀ e ∈ es, e.ident ≠ s) : string_to_enum_go i es s = none := by
  induction es generalizing i with
  | nil => rfl
  | cons e rest ih =>
    rw [string_to_enum_go, if_neg (by simp [(h e (by simp)).symm])]
    exact ih (i + 1) (fun x hx => h x (List.mem_cons_of_mem _ hx))

/-- C6: for every emitted enumeration with uniquely-named entries none of
which is literally named `NUM (invalid)`, the conversion functions
round-trip: `string_to_X (X_to_string v) = v` for every declared entry `v`;
the `NUM` sentinel converts to the text `NUM (invalid)` in the to-string
direction only, and that text is rejected by `string_to_X`. -/
theorem enum_string_roundTrip (t : SType)
    (hnd : (t.enums.map (fun e => e.ident)).Nodup)
    (hnum : ∀ e ∈ t.enums, e.ident ≠ "NUM (invalid)") :
    (∀ v (h : v < t.enums.length),
      enum_to_string t v = some ((t.enums.get ⟨v, h⟩).ident) ∧
      string_to_enum t ((t.enums.get ⟨v, h⟩).ident) = some v) ∧
    (∀ v, v < t.enums.length →
      ∃ s, enum_to_string t v = some s ∧ string_to_enum t s = some v) ∧
    enum_to_string t t.enums.length = some "NUM (invalid)" ∧
    string_to_enum t "NUM (invalid)" = none := by
  have hfwd : ∀ v (h : v < t.enums.length),
      enum_to_string t v = some ((t.enums.get ⟨v, h⟩).ident) := by
    intro v h
    have := enum_to_string_go_at t.enums 0 v h
    rw [Nat.zero_add] at this
    rw [enum_to_string, this]
  have hbwd : ∀ v (h : v < t.enums.length),
      string_to_enum t ((t.enums.get ⟨v, h⟩).ident) = some v := by
    intro v h
    have := string_to_enum_go_at t.enums 0 v hnd h
    rw [Nat.zero_add] at this
    rw [string_to_enum, this]
  refine ⟨fun v h => ⟨hfwd v h, hbwd v h⟩, ?_, ?_, ?_⟩
  · intro v h
    exact ⟨(t.enums.get ⟨v, h⟩).ident, hfwd v h, hbwd v h⟩
  · have hmiss := enum_to_string_go_ge t.enums 0 t.enums.length (by omega)
    rw [enum_to_string, hmiss]
    simp
  · rw [string_to_enum]
    exact string_to_enum_go_none t.enums 0 "NUM (invalid)" hnum

/-- Witness for C6 at the concrete `Color` enumeration (`Red`, `Blue`):
round-trip on `Red`, sentinel text in the to-string direction, rejection of
the sentinel text in the reverse direction. -/
theorem enum_string_roundTrip_witness :
    enum_to_string colorEnum 0 = some "Red" ∧
    string_to_enum colorEnum "Red" = some 0 ∧
    enum_to_string colorEnum 2 = some "NUM (invalid)" ∧
    string_to_enum colorEnum "NUM (invalid)" = none := by
  have h := enum_string_roundTrip colorEnum (by decide) (by decide)
  refine ⟨?_, ?_, ?_, ?_⟩
  · exact ((h.1 0 (by decide)).1).trans (by decide)
  · exact (h.1 0 (by decide)).2
  · exact h.2.2.1
  · exact h.2.2.2

/-- Closed form of the `base_level` case chain: value `v` is matched by the
arm generated at offset `v - i` when it lies within the entries. -/
theorem base_level_go_eq (es : List Enumeration) (i v : Nat) :
    base_level_go i es v = if i ≤ v ∧ v < i + es.length then some v else none := by
  induction es generalizing i with
  | nil =>
    rw [base_level_go, if_neg]
    rintro ⟨h1, h2⟩
    simp only [List.length_nil, Nat.add_zero] at h2
    omega
  | cons e rest ih =>
    rw [base_level_go, ih]
    by_cases hv : v = i
    · subst hv
      rw [if_pos (by simp), if_pos ⟨Nat.le_refl v, by simp [Nat.lt_add_of_pos_right]⟩]
    · rw [if_neg (by simp [hv])]
      have hiff : ((i + 1) ≤ v ∧ v < (i + 1) + rest.length) ↔
          (i ≤ v ∧ v < i + (e :: rest).length) := by
        simp only [List.length_cons]
        omega
      exact if_congr hiff rfl rfl

/-- The `from_base_level` case chain has the same closed form. -/
theorem from_base_level_go_eq (es : List Enumeration) (i v : Nat) :
    from_base_level_go i es v = base_level_go i es v := by
  induction es generalizing i with
  | nil => rfl
  | cons e rest ih =>
    rw [from_base_level_go, base_level_go, ih]

/-- C8: for the machine-type enumeration with `n` declared entries, the
emitted `base_level` returns `i` for the entry declared at position `i`
and `n` for the `NUM` sentinel, and `from_base_level` inverts `base_level`
on every declared entry. -/
theorem machineType_base_level_inverse (t : SType) (hm : t.isMachineType = true) :
    (∀ v, v < t.enums.length → base_level t v = some v) ∧
    base_level t t.enums.length = some t.enums.length ∧
    (∀ v, v < t.enums.length →
      ∃ b, base_level t v = some b ∧ from_base_level t b = some v) := by
  have hgo : ∀ v, base_level_go 0 t.enums v =
      if v < t.enums.length then some v else none := by
    intro v
    rw [base_level_go_eq]
    simp
  have hin : ∀ v, v < t.enums.length → base_level t v = some v := by
    intro v hv
    rw [base_level, hgo v, if_pos hv]
  refine ⟨hin, ?_, ?_⟩
  · rw [base_level, hgo, if_neg (by omega)]
    simp
  · intro v hv
    refine ⟨v, hin v hv, ?_⟩
    rw [from_base_level, from_base_level_go_eq, hgo v, if_pos hv]

/-- Witness for C8 at the concrete machine-type enumeration
(`L1Cache, L2Cache, Directory`): positions map to 0..2, `NUM` to 3, and
`from_base_level` inverts. -/
theorem machineType_base_level_inverse_witness :
    base_level machineTypeEnum 2 = some 2 ∧
    base_level machineTypeEnum 3 = some 3 ∧
    from_base_level machineTypeEnum 1 = some 1 := by
  have h := machineType_base_level_inverse machineTypeEnum (by decide)
  refine ⟨h.1 2 (by decide), h.2.1, ?_⟩
  obtain ⟨b, hb1, hb2⟩ := h.2.2 1 (by decide)
  have hb : b = 1 := by
    have h1 := h.1 1 (by decide)
    rw [h1] at hb1
    exact (Option.some.inj hb1).symm
  rw [hb] at hb2
  exact hb2

/-- C10: the `methodId` signature mangling joins the name and the parameter
types' generated identifiers with `_`, and it is not injective: the
zero-parameter method `foo_A` and the method `foo` with one parameter of
generated identifier `A` share the key `foo_A`, so after the first is
registered, `addFunc` rejects the second as a duplicate although the two
signatures differ. -/
theorem methodId_not_injective :
    methodId "foo_A" [] = methodId "foo" [aRef] ∧
    (Func.mk "foo_A" [] : Func) ≠ Func.mk "foo" [aRef] ∧
    (addFuncB entryType (Func.mk "foo_A" [])).1 = true ∧
    (addFuncB (addFuncB entryType (Func.mk "foo_A" [])).2 (Func.mk "foo" [aRef])).1 = false := by
  decide

end Slicc
